import Mathlib

/-!
Verification of the vector-editor core of `src/components/graphic-editor.tsx`
(the `GraphicEditor` React component): element store, geometry engine
(hit testing and live resize), history manager, viewport transform, and the
pointer-driven interaction state machine.

Modelling conventions (shallow embedding):

* JavaScript numbers are modelled as exact rationals (`ℚ`).
* Each React event handler is embedded as a function `EditorState → EditorState`.
  Inside one handler invocation, reads of a `useState` variable see the values
  of the render in which the handler closure was created (React's stale-closure
  semantics); `setX(prev => ...)` updaters compose on the queued value.  Between
  two separate events a re-render happens, so the next handler sees all queued
  updates.  This matters in two places, modelled explicitly below:
  - `saveToHistory` is a `useCallback` closing over the render-time
    `history`/`historyIndex`/`canvasState`, so when a handler first calls
    `setCanvasState` and then `saveToHistory()` in the same invocation
    (`completeTextInput`, `processImageFile`, `updateSelectedElement`,
    `deleteSelectedElement`), the snapshot pushed is the state from before
    that `setCanvasState`.
  - `handleMouseUp` may call `saveToHistory` twice (drag branch and draw
    branch); both calls compute the same new array from the same captured
    values, so exactly one entry is appended in total.
* `Math.random().toString(36).substr(2, 9)` (the id generator) is modelled as
  an abstract stream `Env.idStream : ℕ → String` consumed at successive
  indices; freshness theorems assume the stream is injective.
* `Math.sqrt` appears in two roles: in hit tests it occurs only in comparisons
  `Math.sqrt d2 ≤ r`, translated exactly as `0 ≤ r ∧ d2 ≤ r ^ 2`; in the
  circle/star/polygon live-resize its result is stored, so the stored value is
  produced by an uninterpreted oracle `Env.mathSqrt : ℚ → ℚ`.
* The canvas element and its bounding rectangle, the 2D text-measuring context
  and the image decoder are external browser collaborators; they are supplied
  through `Env` (canvas size, rect origin, `measureText`) and events carry the
  decoded image dimensions.
* JavaScript truthiness of `a || b` on optional numbers/strings and of
  optional booleans is modelled by the `jsOr*`/`truthy*` helpers below.
-/

namespace GraphicEditor

attribute [local semireducible] Rat.mul Rat.add Rat.sub Rat.inv

/-- A 2-D point with exact rational coordinates. -/
structure Point where
  x : ℚ
  y : ℚ
deriving DecidableEq

/-- The tool identifiers of `Toolbar` (`toolbar.tsx`); the nine drawable ones
double as the `type` tags of `DrawingElement`. -/
inductive Tool
  | select | pan | brush | rectangle | circle | line | triangle | star | polygon | text | image
deriving DecidableEq

/-- Horizontal text alignment (`"left" | "center" | "right"`). -/
inductive TextAlignKind
  | left | center | right
deriving DecidableEq

/-- JS `a || b` for an optional number: `b` when `a` is absent or `0` (both falsy). -/
def jsOrQ (a : Option ℚ) (b : ℚ) : ℚ :=
  match a with
  | some v => if v = 0 then b else v
  | none => b

/-- JS `a || b` for an optional string: `b` when `a` is absent or empty. -/
def jsOrS (a : Option String) (b : String) : String :=
  match a with
  | some v => if v = "" then b else v
  | none => b

/-- JS truthiness of an optional boolean (`undefined` is falsy). -/
def truthyB (a : Option Bool) : Bool :=
  a.getD false

/-- JS truthiness of a nullable string (`null` and `""` are falsy). -/
def truthyS (a : Option String) : Bool :=
  match a with
  | some s => decide (s ≠ "")
  | none => false

/-- JS `String.prototype.trim`: strip leading and trailing whitespace.
(Modelled directly over the code-point list; `String.trim` itself is opaque to
kernel reduction.  The buffers in this development are ASCII, where the two
agree.) -/
def jsTrim (s : String) : String :=
  String.mk (((s.data.dropWhile Char.isWhitespace).reverse.dropWhile Char.isWhitespace).reverse)

/-- JS `String.prototype.startsWith` (modelled over the code-point list;
`String.startsWith` itself is opaque to kernel reduction). -/
def jsStartsWith (s p : String) : Bool :=
  decide (s.data.take p.data.length = p.data)

/-- The `DrawingElement` interface of `graphic-editor.tsx`: one record with
mostly-optional fields shared by all nine element kinds.  `rotation`, `flipX`
and `flipY` are the extra fields written through the properties panel
(`properties-panel.tsx` declares them and the spread in
`updateSelectedElement` stores them). -/
structure DrawingElement where
  id : String
  type : Tool
  x : ℚ := 0
  y : ℚ := 0
  color : String := ""
  strokeWidth : ℚ := 0
  points : Option (List Point) := none
  width : Option ℚ := none
  height : Option ℚ := none
  radius : Option ℚ := none
  endX : Option ℚ := none
  endY : Option ℚ := none
  text : Option String := none
  fontSize : Option ℚ := none
  fontFamily : Option String := none
  textAlign : Option TextAlignKind := none
  visible : Option Bool := none
  name : Option String := none
  imageData : Option String := none
  imageWidth : Option ℚ := none
  imageHeight : Option ℚ := none
  rotation : Option ℚ := none
  flipX : Option Bool := none
  flipY : Option Bool := none
deriving DecidableEq

/-- The `CanvasState` interface: the document. -/
structure CanvasState where
  elements : List DrawingElement
  selectedElementId : Option String
deriving DecidableEq

/-- External collaborators of the component, fixed for a session: the abstract
id supply standing for `Math.random().toString(36).substr(2, 9)`, the canvas
2D context's `measureText(text).width` as a function of text, font size and
font family, a real-square-root oracle for values that are stored (not just
compared), the canvas bounding-rect origin in client coordinates, and the
canvas pixel size. -/
structure Env where
  idStream : Nat → String
  measureText : String → ℚ → String → ℚ
  mathSqrt : ℚ → ℚ
  rectLeft : ℚ
  rectTop : ℚ
  canvasWidth : ℚ
  canvasHeight : ℚ

/-- All `useState` variables of `GraphicEditor`, plus `nextIdIdx`, the model's
read position in `Env.idStream` (the source draws a fresh random id at each
`generateId()` call). -/
structure EditorState where
  tool : Tool
  isDrawing : Bool
  currentColor : String
  strokeWidth : ℚ
  fillMode : Bool
  fontSize : ℚ
  canvasState : CanvasState
  history : List CanvasState
  historyIndex : Nat
  panOffset : Point
  zoom : ℚ
  isPanning : Bool
  lastPanPoint : Point
  isEditingText : Bool
  textInputPosition : Point
  textInputValue : String
  fontFamily : String
  textAlign : TextAlignKind
  isDragging : Bool
  dragStart : Point
  dragElementStart : Point
  nextIdIdx : Nat
deriving DecidableEq

/-- The initial values passed to the `useState` hooks. -/
def initState : EditorState :=
  { tool := Tool.select
    isDrawing := false
    currentColor := "#164e63"
    strokeWidth := 2
    fillMode := true
    fontSize := 16
    canvasState := { elements := [], selectedElementId := none }
    history := [{ elements := [], selectedElementId := none }]
    historyIndex := 0
    panOffset := ⟨0, 0⟩
    zoom := 1
    isPanning := false
    lastPanPoint := ⟨0, 0⟩
    isEditingText := false
    textInputPosition := ⟨0, 0⟩
    textInputValue := ""
    fontFamily := "Arial"
    textAlign := TextAlignKind.left
    isDragging := false
    dragStart := ⟨0, 0⟩
    dragElementStart := ⟨0, 0⟩
    nextIdIdx := 0 }

/-- `saveToHistory`: truncate after the current index, push the captured
document snapshot, move the index to the new tail.  The snapshot argument is
the render-time `canvasState` the `useCallback` closed over (see the header
note on stale closures); callers that queued a `setCanvasState` earlier in the
same handler still pass the pre-update snapshot here. -/
def saveToHistory (renderCs : CanvasState) (hist : List CanvasState) (idx : Nat) :
    List CanvasState × Nat :=
  let newHistory := hist.take (idx + 1) ++ [renderCs]
  (newHistory, newHistory.length - 1)

/-- `undo`: decrement the index and load that snapshot; no-op at index 0. -/
def undo (σ : EditorState) : EditorState :=
  if 0 < σ.historyIndex then
    { σ with historyIndex := σ.historyIndex - 1
             canvasState := σ.history.getD (σ.historyIndex - 1) ⟨[], none⟩ }
  else σ

/-- `redo`: increment the index and load that snapshot; no-op at the tail. -/
def redo (σ : EditorState) : EditorState :=
  if σ.historyIndex < σ.history.length - 1 then
    { σ with historyIndex := σ.historyIndex + 1
             canvasState := σ.history.getD (σ.historyIndex + 1) ⟨[], none⟩ }
  else σ

/-- `getMousePos`: client coordinates minus the canvas bounding-rect origin
and the pan offset, divided by the zoom (the canvas is assumed mounted, as in
any delivered pointer event). -/
def getMousePos (env : Env) (σ : EditorState) (clientX clientY : ℚ) : Point :=
  ⟨(clientX - env.rectLeft - σ.panOffset.x) / σ.zoom,
   (clientY - env.rectTop - σ.panOffset.y) / σ.zoom⟩

/-- The per-element containment test: the body of one iteration of
`findElementAtPosition`'s loop, after the visibility check.  A `Math.sqrt d2 ≤ r`
comparison is translated as `0 ≤ r ∧ d2 ≤ r ^ 2`, which is exactly equivalent
over the reals; `continue` (zero-length line, absent text, absent brush
points) is "no hit on this element". -/
def elementHit (env : Env) (element : DrawingElement) (pos : Point) : Bool :=
  if element.type = Tool.rectangle ∨ element.type = Tool.triangle then
    let width := jsOrQ element.width 0
    let height := jsOrQ element.height 0
    let minX := if 0 ≤ width then element.x else element.x + width
    let maxX := if 0 ≤ width then element.x + width else element.x
    let minY := if 0 ≤ height then element.y else element.y + height
    let maxY := if 0 ≤ height then element.y + height else element.y
    decide (minX ≤ pos.x ∧ pos.x ≤ maxX ∧ minY ≤ pos.y ∧ pos.y ≤ maxY)
  else if element.type = Tool.circle then
    let r := jsOrQ element.radius 0
    let d2 := (pos.x - element.x) ^ 2 + (pos.y - element.y) ^ 2
    decide (0 ≤ r ∧ d2 ≤ r ^ 2)
  else if element.type = Tool.star ∨ element.type = Tool.polygon then
    let r := jsOrQ element.radius 0
    let d2 := (pos.x - element.x) ^ 2 + (pos.y - element.y) ^ 2
    decide (0 ≤ r ∧ d2 ≤ r ^ 2)
  else if element.type = Tool.line then
    let x1 := element.x
    let y1 := element.y
    let x2 := jsOrQ element.endX element.x
    let y2 := jsOrQ element.endY element.y
    let A := pos.x - x1
    let B := pos.y - y1
    let C := x2 - x1
    let D := y2 - y1
    let dot := A * C + B * D
    let lenSq := C * C + D * D
    if lenSq = 0 then false
    else
      let param := dot / lenSq
      let xy : ℚ × ℚ :=
        if param < 0 then (x1, y1)
        else if 1 < param then (x2, y2)
        else (x1 + param * C, y1 + param * D)
      let dx := pos.x - xy.1
      let dy := pos.y - xy.2
      let m := max (element.strokeWidth / 2) 8
      decide (dx * dx + dy * dy ≤ m ^ 2)
  else if element.type = Tool.text ∧ truthyS element.text then
    let fs := jsOrQ element.fontSize 16
    let fam := jsOrS element.fontFamily "Arial"
    let textWidth := env.measureText (element.text.getD "") fs fam
    let textHeight := fs
    decide (element.x ≤ pos.x ∧ pos.x ≤ element.x + textWidth ∧
            element.y - textHeight ≤ pos.y ∧ pos.y ≤ element.y + 4)
  else if element.type = Tool.image then
    let width := jsOrQ element.width (jsOrQ element.imageWidth 0)
    let height := jsOrQ element.height (jsOrQ element.imageHeight 0)
    decide (element.x ≤ pos.x ∧ pos.x ≤ element.x + width ∧
            element.y ≤ pos.y ∧ pos.y ≤ element.y + height)
  else if element.type = Tool.brush ∧ element.points ≠ none then
    (element.points.getD []).any fun point =>
      decide ((pos.x - point.x) ^ 2 + (pos.y - point.y) ^ 2 ≤
        (max element.strokeWidth 8) ^ 2)
  else false

/-- The descending index loop of `findElementAtPosition`:
`for (let i = elements.length - 1; i >= 0; i--)`, skipping elements whose
`visible` flag is falsy and returning the first hit's id. -/
def findLoop (env : Env) (els : List DrawingElement) (pos : Point) : Nat → Option String
  | 0 => none
  | n + 1 =>
    match els[n]? with
    | some element =>
      if truthyB element.visible && elementHit env element pos then some element.id
      else findLoop env els pos n
    | none => findLoop env els pos n

/-- `findElementAtPosition`: run the loop from the last index down. -/
def findElementAtPosition (env : Env) (els : List DrawingElement) (pos : Point) :
    Option String :=
  findLoop env els pos els.length

/-- The fresh `newElement` record `addElement` builds for the current tool at
`pos` before appending it: the shared fields, plus the tool's degenerate seed
fields (single-point path, zero width/height, zero radius, or zero-length
segment). -/
def mkToolElement (env : Env) (σ : EditorState) (pos : Point) : DrawingElement :=
  let base : DrawingElement :=
    { id := env.idStream σ.nextIdIdx, type := σ.tool, x := pos.x, y := pos.y,
      color := σ.currentColor, strokeWidth := σ.strokeWidth, visible := some true }
  if σ.tool = Tool.brush then { base with points := some [pos] }
  else if σ.tool = Tool.rectangle ∨ σ.tool = Tool.triangle then
    { base with width := some 0, height := some 0 }
  else if σ.tool = Tool.circle ∨ σ.tool = Tool.star ∨ σ.tool = Tool.polygon then
    { base with radius := some 0 }
  else if σ.tool = Tool.line then { base with endX := some pos.x, endY := some pos.y }
  else base

/-- `addElement`: allocate a fresh element of the current tool's kind at
`pos`, seed its variant fields to a degenerate zero-size state, append it and
select it.  (Reached only for the shape/brush tools: `handleMouseDown`
returns earlier for `select`, `pan`, `text` and `image`.) -/
def addElement (env : Env) (σ : EditorState) (pos : Point) : EditorState :=
  { σ with nextIdIdx := σ.nextIdIdx + 1
           canvasState := { σ.canvasState with
                            elements := σ.canvasState.elements ++ [mkToolElement env σ pos]
                            selectedElementId := some (env.idStream σ.nextIdIdx) } }

/-- `completeTextInput`: if the buffered text is non-blank, append a new text
element at the captured position and commit; then leave text-editing mode
and clear the buffer.  The snapshot passed to `saveToHistory` is the
render-time `canvasState`, i.e. the document before the text element was
appended (stale closure, see the header note). -/
def completeTextInput (env : Env) (σ : EditorState) : EditorState :=
  let σ1 :=
    if jsTrim σ.textInputValue ≠ "" then
      let newId := env.idStream σ.nextIdIdx
      let newElement : DrawingElement :=
        { id := newId, type := Tool.text,
          x := σ.textInputPosition.x, y := σ.textInputPosition.y,
          color := σ.currentColor, strokeWidth := σ.strokeWidth,
          text := some σ.textInputValue, fontSize := some σ.fontSize,
          fontFamily := some σ.fontFamily, textAlign := some σ.textAlign,
          visible := some true }
      let hi := saveToHistory σ.canvasState σ.history σ.historyIndex
      { σ with nextIdIdx := σ.nextIdIdx + 1
               canvasState := { elements := σ.canvasState.elements ++ [newElement]
                                selectedElementId := some newId }
               history := hi.1
               historyIndex := hi.2 }
    else σ
  { σ1 with isEditingText := false, textInputValue := "" }

/-- `handleMouseDown`.  Branch order as in the source: a pointer-down while
editing text commits the text and returns; middle button, Ctrl+left or the
pan tool starts panning; otherwise `setIsDrawing(true)` runs *before* the
remaining tool dispatch, so it also fires for the `image`, `select` and
`text` tools; the `select` tool hit-tests and, on a (truthy) hit, starts a
drag after recording the drag origin and the element's original position. -/
def handleMouseDown (env : Env) (σ : EditorState) (clientX clientY : ℚ)
    (button : Nat) (ctrlKey : Bool) : EditorState :=
  if σ.isEditingText then completeTextInput env σ
  else if button = 1 ∨ (button = 0 ∧ (ctrlKey ∨ σ.tool = Tool.pan)) then
    { σ with isPanning := true, lastPanPoint := ⟨clientX, clientY⟩ }
  else
    let pos := getMousePos env σ clientX clientY
    let σd := { σ with isDrawing := true }
    if σd.tool = Tool.image then σd
    else if σd.tool = Tool.select then
      let elementId := findElementAtPosition env σd.canvasState.elements pos
      let σ1 := { σd with canvasState := { σd.canvasState with selectedElementId := elementId } }
      if truthyS elementId then
        match σd.canvasState.elements.find? (fun el => el.id = elementId.getD "") with
        | some element =>
          { σ1 with isDragging := true, dragStart := pos,
                    dragElementStart := ⟨element.x, element.y⟩ }
        | none => σ1
      else σ1
    else if σd.tool = Tool.text then
      { σd with isEditingText := true, textInputPosition := pos, textInputValue := "" }
    else addElement env σd pos

/-- `handleMouseMove`.  Panning accumulates the client-space delta into the
pan offset; dragging a (truthy) selection rewrites the selected element from
the cumulative document-space delta since drag start — `x`/`y` from the
recorded `dragElementStart`, but a line's `endX`/`endY` from the element's
*current* endpoint (`element.endX || element.x`); drawing applies the per-kind
live-resize to the last element. -/
def handleMouseMove (env : Env) (σ : EditorState) (clientX clientY : ℚ) : EditorState :=
  if σ.isPanning then
    { σ with panOffset := ⟨σ.panOffset.x + (clientX - σ.lastPanPoint.x),
                           σ.panOffset.y + (clientY - σ.lastPanPoint.y)⟩
             lastPanPoint := ⟨clientX, clientY⟩ }
  else if σ.isDragging && truthyS σ.canvasState.selectedElementId then
    let pos := getMousePos env σ clientX clientY
    let deltaX := pos.x - σ.dragStart.x
    let deltaY := pos.y - σ.dragStart.y
    { σ with canvasState := { σ.canvasState with
        elements := σ.canvasState.elements.map fun element =>
          if element.id = σ.canvasState.selectedElementId.getD "" then
            if element.type = Tool.line then
              { element with x := σ.dragElementStart.x + deltaX
                             y := σ.dragElementStart.y + deltaY
                             endX := some (jsOrQ element.endX element.x + deltaX)
                             endY := some (jsOrQ element.endY element.y + deltaY) }
            else
              { element with x := σ.dragElementStart.x + deltaX
                             y := σ.dragElementStart.y + deltaY }
          else element } }
  else if σ.isDrawing = false then σ
  else
    let pos := getMousePos env σ clientX clientY
    match σ.canvasState.elements.getLast? with
    | none => σ
    | some currentElement =>
      let updated :=
        if σ.tool = Tool.brush ∧ currentElement.points ≠ none then
          { currentElement with points := some (currentElement.points.getD [] ++ [pos]) }
        else if σ.tool = Tool.rectangle ∨ σ.tool = Tool.triangle then
          { currentElement with width := some (pos.x - currentElement.x)
                                height := some (pos.y - currentElement.y) }
        else if σ.tool = Tool.circle ∨ σ.tool = Tool.star ∨ σ.tool = Tool.polygon then
          { currentElement with radius := some (env.mathSqrt
              ((pos.x - currentElement.x) ^ 2 + (pos.y - currentElement.y) ^ 2)) }
        else if σ.tool = Tool.line then
          { currentElement with endX := some pos.x, endY := some pos.y }
        else currentElement
      { σ with canvasState := { σ.canvasState with
          elements := σ.canvasState.elements.dropLast ++ [updated] } }

/-- `handleMouseUp`: stop panning; if a drag or a draw was in progress,
commit.  The drag branch and the draw branch both call the same render-time
`saveToHistory` closure, so even when both flags are set (every select-tool
drag, since `setIsDrawing(true)` ran at pointer-down) the two calls store the
same array and exactly one entry is appended. -/
def handleMouseUp (σ : EditorState) : EditorState :=
  let σ0 := { σ with isPanning := false }
  let σ1 :=
    if σ.isDragging ∨ σ.isDrawing then
      let hi := saveToHistory σ.canvasState σ.history σ.historyIndex
      { σ0 with history := hi.1, historyIndex := hi.2 }
    else σ0
  { σ1 with isDragging := false, isDrawing := false }

/-- `handleWheel`: with the modifier held, one multiplicative zoom step,
clamped to `[0.1, 5]`. -/
def handleWheel (σ : EditorState) (deltaY : ℚ) (ctrlKey : Bool) : EditorState :=
  if ctrlKey then
    let delta : ℚ := if 0 < deltaY then 9 / 10 else 11 / 10
    { σ with zoom := min (max (σ.zoom * delta) (1 / 10)) 5 }
  else σ

/-- `handleZoomIn`. -/
def handleZoomIn (σ : EditorState) : EditorState :=
  { σ with zoom := min (σ.zoom * (12 / 10)) 5 }

/-- `handleZoomOut`. -/
def handleZoomOut (σ : EditorState) : EditorState :=
  { σ with zoom := max (σ.zoom / (12 / 10)) (1 / 10) }

/-- `handleZoomReset`. -/
def handleZoomReset (σ : EditorState) : EditorState :=
  { σ with zoom := 1, panOffset := ⟨0, 0⟩ }

/-- The partial element records the properties panel passes to
`onUpdateElement` (`properties-panel.tsx`): every call site sends only these
fields — never `id` or `type`. -/
structure ElementUpdates where
  x : Option ℚ := none
  y : Option ℚ := none
  width : Option ℚ := none
  height : Option ℚ := none
  radius : Option ℚ := none
  color : Option String := none
  strokeWidth : Option ℚ := none
  text : Option String := none
  fontSize : Option ℚ := none
  fontFamily : Option String := none
  textAlign : Option TextAlignKind := none
  rotation : Option ℚ := none
  flipX : Option Bool := none
  flipY : Option Bool := none
deriving DecidableEq

/-- The JS spread `{ ...element, ...updates }`: a field present in `updates`
overrides (even with a falsy value such as `0`), an absent field is kept. -/
def applyUpdates (element : DrawingElement) (u : ElementUpdates) : DrawingElement :=
  { element with
    x := u.x.getD element.x
    y := u.y.getD element.y
    width := if u.width.isSome then u.width else element.width
    height := if u.height.isSome then u.height else element.height
    radius := if u.radius.isSome then u.radius else element.radius
    color := u.color.getD element.color
    strokeWidth := u.strokeWidth.getD element.strokeWidth
    text := if u.text.isSome then u.text else element.text
    fontSize := if u.fontSize.isSome then u.fontSize else element.fontSize
    fontFamily := if u.fontFamily.isSome then u.fontFamily else element.fontFamily
    textAlign := if u.textAlign.isSome then u.textAlign else element.textAlign
    rotation := if u.rotation.isSome then u.rotation else element.rotation
    flipX := if u.flipX.isSome then u.flipX else element.flipX
    flipY := if u.flipY.isSome then u.flipY else element.flipY }

/-- `updateSelectedElement`: no-op without a (truthy) selection; otherwise
merge the partial fields into the selected element and commit.  The snapshot
passed to `saveToHistory` is the render-time `canvasState`, i.e. the document
*before* the edit (stale closure). -/
def updateSelectedElement (σ : EditorState) (u : ElementUpdates) : EditorState :=
  if truthyS σ.canvasState.selectedElementId then
    let hi := saveToHistory σ.canvasState σ.history σ.historyIndex
    { σ with canvasState := { σ.canvasState with
               elements := σ.canvasState.elements.map fun element =>
                 if element.id = σ.canvasState.selectedElementId.getD "" then
                   applyUpdates element u
                 else element }
             history := hi.1
             historyIndex := hi.2 }
  else σ

/-- `deleteSelectedElement`: no-op without a (truthy) selection; otherwise
remove the selected element, clear the selection and commit (again with the
pre-delete snapshot, stale closure). -/
def deleteSelectedElement (σ : EditorState) : EditorState :=
  if truthyS σ.canvasState.selectedElementId then
    let hi := saveToHistory σ.canvasState σ.history σ.historyIndex
    { σ with canvasState := { elements := σ.canvasState.elements.filter
                                 (fun element => element.id ≠ σ.canvasState.selectedElementId.getD "")
                              selectedElementId := none }
             history := hi.1
             historyIndex := hi.2 }
  else σ

/-- A file delivered by drag-and-drop or the file picker: its MIME type,
decoded intrinsic pixel size, and data-URI payload (the `FileReader` /
`Image` decoding pipeline is an external collaborator delivering these). -/
structure DFile where
  ftype : String
  w : ℚ
  h : ℚ
  data : String
deriving DecidableEq

/-- The `img.onload` completion of `processImageFile`: scale the intrinsic
size down (preserving aspect ratio) when it exceeds half the canvas size,
place the element centred on the drop position (or centred on the canvas when
invoked from the file picker), append and select it, and commit.  The
snapshot pushed is the render-time `canvasState` captured when
`processImageFile` was called (stale closure). -/
def processImageFileLoaded (env : Env) (σ : EditorState) (file : DFile)
    (dropPosition : Option Point) : EditorState :=
  let maxWidth := env.canvasWidth * (1 / 2)
  let maxHeight := env.canvasHeight * (1 / 2)
  let wh : ℚ × ℚ :=
    if maxWidth < file.w ∨ maxHeight < file.h then
      let ratio := min (maxWidth / file.w) (maxHeight / file.h)
      (file.w * ratio, file.h * ratio)
    else (file.w, file.h)
  let width := wh.1
  let height := wh.2
  let x := match dropPosition with
    | some dp => dp.x - width / 2
    | none => (env.canvasWidth - width) / 2
  let y := match dropPosition with
    | some dp => dp.y - height / 2
    | none => (env.canvasHeight - height) / 2
  let newId := env.idStream σ.nextIdIdx
  let newElement : DrawingElement :=
    { id := newId, type := Tool.image, x := x, y := y,
      color := σ.currentColor, strokeWidth := σ.strokeWidth,
      imageData := some file.data, imageWidth := some width, imageHeight := some height,
      width := some width, height := some height, visible := some true }
  let hi := saveToHistory σ.canvasState σ.history σ.historyIndex
  { σ with nextIdIdx := σ.nextIdIdx + 1
           canvasState := { elements := σ.canvasState.elements ++ [newElement]
                            selectedElementId := some newId }
           history := hi.1
           historyIndex := hi.2 }

/-- `handleDrop`: keep only the files whose MIME type starts with `image/`;
if none remain, do nothing; otherwise convert the drop point to document
coordinates and process the *first* image file.  (The model folds the
asynchronous load completion into the same step; no other event intervenes.) -/
def handleDrop (env : Env) (σ : EditorState) (clientX clientY : ℚ)
    (files : List DFile) : EditorState :=
  let imageFiles := files.filter fun f => jsStartsWith f.ftype "image/"
  match imageFiles with
  | [] => σ
  | f :: _ =>
    let dropPosition : Point :=
      ⟨(clientX - env.rectLeft - σ.panOffset.x) / σ.zoom,
       (clientY - env.rectTop - σ.panOffset.y) / σ.zoom⟩
    processImageFileLoaded env σ f (some dropPosition)

/-- `handleImageUpload` (the hidden file input's change event): reject
non-image files before any state mutation, else process without a drop
position. -/
def handleImageUpload (env : Env) (σ : EditorState) (file : DFile) : EditorState :=
  if jsStartsWith file.ftype "image/" then processImageFileLoaded env σ file none
  else σ

/-- The events the component reacts to: canvas pointer/wheel events, the
top-toolbar commands, tool selection, the text-entry overlay's key/blur/change
events (the overlay exists only while `isEditingText`), the properties-panel
commands, and file drop/upload. -/
inductive Event
  | mouseDown (clientX clientY : ℚ) (button : Nat) (ctrlKey : Bool)
  | mouseMove (clientX clientY : ℚ)
  | mouseUp
  | wheel (deltaY : ℚ) (ctrlKey : Bool)
  | undoCmd
  | redoCmd
  | zoomInCmd
  | zoomOutCmd
  | zoomResetCmd
  | setTool (t : Tool)
  | updateSelected (u : ElementUpdates)
  | deleteSelected
  | textChange (s : String)
  | textSubmit
  | textEscape
  | drop (clientX clientY : ℚ) (files : List DFile)
  | imageUpload (file : DFile)

/-- One step of the interaction state machine: dispatch an event to its
handler.  The text-input events are guarded by `isEditingText` because the
input element is only rendered in that mode. -/
def step (env : Env) (σ : EditorState) : Event → EditorState
  | Event.mouseDown cx cy b ctrl => handleMouseDown env σ cx cy b ctrl
  | Event.mouseMove cx cy => handleMouseMove env σ cx cy
  | Event.mouseUp => handleMouseUp σ
  | Event.wheel dY ctrl => handleWheel σ dY ctrl
  | Event.undoCmd => undo σ
  | Event.redoCmd => redo σ
  | Event.zoomInCmd => handleZoomIn σ
  | Event.zoomOutCmd => handleZoomOut σ
  | Event.zoomResetCmd => handleZoomReset σ
  | Event.setTool t => { σ with tool := t }
  | Event.updateSelected u => updateSelectedElement σ u
  | Event.deleteSelected => deleteSelectedElement σ
  | Event.textChange s => if σ.isEditingText then { σ with textInputValue := s } else σ
  | Event.textSubmit => if σ.isEditingText then completeTextInput env σ else σ
  | Event.textEscape =>
      if σ.isEditingText then { σ with isEditingText := false, textInputValue := "" } else σ
  | Event.drop cx cy files => handleDrop env σ cx cy files
  | Event.imageUpload file => handleImageUpload env σ file

/-- The state reached from the initial render by a sequence of events. -/
def reach (env : Env) (evs : List Event) : EditorState :=
  evs.foldl (step env) initState

/-- A concrete environment: ids are non-empty runs of the letter a (index
`n` maps to `n + 1` copies, an injective supply), text measures as zero wide,
the square-root oracle is irrelevant to the traces below, the canvas rect
sits at the client origin and the canvas is 800 x 600. -/
def defaultEnv : Env :=
  { idStream := fun n => String.mk (List.replicate (n + 1) 'a')
    measureText := fun _ _ _ => 0
    mathSqrt := fun _ => 0
    rectLeft := 0
    rectTop := 0
    canvasWidth := 800
    canvasHeight := 600 }

/-- The document-to-screen transform of the viewport, as applied by the
component when positioning the text-entry overlay:
`left: textInputPosition.x * zoom + panOffset.x` (and the same for `top`). -/
def viewToScreen (panOffset : Point) (zoom : ℚ) (p : Point) : Point :=
  ⟨p.x * zoom + panOffset.x, p.y * zoom + panOffset.y⟩

/-- The screen-to-document transform used by `getMousePos` (and `handleDrop`),
on canvas-local screen coordinates: `(screenPoint - panOffset) / zoom`. -/
def viewToDocument (panOffset : Point) (zoom : ℚ) (p : Point) : Point :=
  ⟨(p.x - panOffset.x) / zoom, (p.y - panOffset.y) / zoom⟩

/-- One committed gesture seen at the history-manager level: by pointer-up the
document has become `c` (all the gesture's pointer events re-rendered before
the up event), and `saveToHistory` runs with it. -/
def commitGesture (c : CanvasState) (σ : EditorState) : EditorState :=
  let hi := saveToHistory c σ.history σ.historyIndex
  { σ with canvasState := c, history := hi.1, historyIndex := hi.2 }

/-- The spec's description of hit testing (spec-level definition, for
comparison with the source's descending loop): evaluate elements top-most
first, i.e. first match in the reversed sequence, with invisible elements
skipped by the match predicate. -/
def hitTestSpecOrder (env : Env) (els : List DrawingElement) (pos : Point) :
    Option String :=
  (els.reverse.find? fun el => truthyB el.visible && elementHit env el pos).map
    fun el => el.id

/-- The identity content of a document: its elements' ids in sequence order. -/
def elemIds (c : CanvasState) : List String :=
  c.elements.map fun e => e.id

/-- Ids in `c` are pairwise distinct and all drawn from id-stream positions
below `n`. -/
def GoodIds (env : Env) (n : Nat) (c : CanvasState) : Prop :=
  (elemIds c).Nodup ∧ ∀ s ∈ elemIds c, ∃ k, k < n ∧ s = env.idStream k

/-- The id invariant of a whole editor state: the live document and every
history snapshot have distinct ids drawn from positions below `nextIdIdx`. -/
def IdInv (env : Env) (σ : EditorState) : Prop :=
  GoodIds env σ.nextIdIdx σ.canvasState ∧ ∀ c ∈ σ.history, GoodIds env σ.nextIdIdx c

/-- A concrete selected line from (0,0) to (10,10). -/
def lineSample : DrawingElement :=
  { id := "ln", type := Tool.line, x := 0, y := 0, color := "c", strokeWidth := 2,
    endX := some 10, endY := some 10, visible := some true }

/-- An editor state in the middle of a select-tool drag of `lineSample`,
with drag origin (0,0) and the line's original anchor recorded. -/
def lineDragState : EditorState :=
  { initState with
    tool := Tool.select
    canvasState := { elements := [lineSample], selectedElementId := some "ln" }
    isDragging := true
    dragStart := ⟨0, 0⟩
    dragElementStart := ⟨0, 0⟩ }

/-- An editor state in text-entry mode with the non-blank buffer "hi" and the
rectangle tool active. -/
def editingTextState : EditorState :=
  { initState with
    isEditingText := true
    textInputValue := "hi"
    tool := Tool.rectangle
    textInputPosition := ⟨3, 4⟩ }

/-- The id supply of `defaultEnv` is injective (distinct indices give strings
of distinct lengths). -/
theorem defaultEnv_idStream_injective : Function.Injective defaultEnv.idStream := by
  intro a b h
  have hlen : a + 1 = b + 1 := by
    have := congrArg (fun s => s.length) h
    simpa [defaultEnv, String.length] using this
  omega

/-- C8: for every pan offset and zoom in [0.1, 5], the screen-to-document
conversion is `(screenPoint - panOffset) / zoom`, the exact inverse of the
document-to-screen transform `document * zoom + panOffset` (round-trip
identity); `getMousePos` is exactly this conversion applied to the pointer's
canvas-local coordinates; and concretely, with zoom 2 and pan (100,100), the
screen point (300,300) maps to the document point (100,100). -/
theorem viewport_roundtrip (pan : Point) (zoom : ℚ) (p : Point)
    (h1 : 1 / 10 ≤ zoom) (h2 : zoom ≤ 5) :
    viewToDocument pan zoom (viewToScreen pan zoom p) = p
    ∧ (∀ (env : Env) (σ : EditorState) (cx cy : ℚ),
        getMousePos env σ cx cy =
          viewToDocument σ.panOffset σ.zoom ⟨cx - env.rectLeft, cy - env.rectTop⟩)
    ∧ getMousePos defaultEnv { initState with zoom := 2, panOffset := ⟨100, 100⟩ } 300 300
        = ⟨100, 100⟩ := by
  have hz : zoom ≠ 0 := by
    intro h
    rw [h] at h1
    norm_num at h1
  refine ⟨?_, ?_, ?_⟩
  · simp only [viewToDocument, viewToScreen]
    cases p with
    | mk px py =>
      simp only [Point.mk.injEq]
      constructor <;> field_simp
  · intro env σ cx cy
    rfl
  · decide

/-- C8 witness: the round trip at the concrete claim instance zoom = 2,
pan = (100,100). -/
theorem viewport_roundtrip_witness :
    (1 : ℚ) / 10 ≤ 2 ∧ (2 : ℚ) ≤ 5
    ∧ viewToDocument ⟨100, 100⟩ 2 (viewToScreen ⟨100, 100⟩ 2 ⟨7, 9⟩) = ⟨7, 9⟩ := by
  refine ⟨by norm_num, by norm_num, ?_⟩
  exact (viewport_roundtrip ⟨100, 100⟩ 2 ⟨7, 9⟩ (by norm_num) (by norm_num)).1

theorem commitGesture_tail (c : CanvasState) (σ : EditorState) :
    (commitGesture c σ).historyIndex = (commitGesture c σ).history.length - 1
    ∧ (commitGesture c σ).historyIndex < (commitGesture c σ).history.length
    ∧ (commitGesture c σ).history.getLast? = some c := by
  refine ⟨rfl, ?_, ?_⟩
  · show (σ.history.take (σ.historyIndex + 1) ++ [c]).length - 1 <
      (σ.history.take (σ.historyIndex + 1) ++ [c]).length
    simp
  · show (σ.history.take (σ.historyIndex + 1) ++ [c]).getLast? = some c
    simp

theorem redo_of_tail (σ : EditorState)
    (h : σ.historyIndex = σ.history.length - 1) : redo σ = σ := by
  unfold redo
  rw [if_neg]
  omega

theorem undo_preserves_index_lt (σ : EditorState)
    (h : σ.historyIndex < σ.history.length) :
    (undo σ).historyIndex < (undo σ).history.length := by
  unfold undo
  split
  · show σ.historyIndex - 1 < σ.history.length
    omega
  · exact h

theorem foldl_commit_index_lt (σ0 : EditorState) (cs : List CanvasState)
    (h : 1 ≤ cs.length) :
    (cs.foldl (fun s x => commitGesture x s) σ0).historyIndex <
      (cs.foldl (fun s x => commitGesture x s) σ0).history.length := by
  induction cs generalizing σ0 with
  | nil => simp at h
  | cons c cs ih =>
    cases cs with
    | nil => simpa using (commitGesture_tail c σ0).2.1
    | cons d ds => exact ih (commitGesture c σ0) (by simp)

theorem iterate_undo_index_lt (σ : EditorState) (k : Nat)
    (h : σ.historyIndex < σ.history.length) :
    (undo^[k] σ).historyIndex < (undo^[k] σ).history.length := by
  induction k generalizing σ with
  | zero => simpa using h
  | succ k ih =>
    rw [Function.iterate_succ_apply]
    exact ih (undo σ) (undo_preserves_index_lt σ h)

/-- C5: after committing N times, undoing k times (1 ≤ k ≤ N) and committing
once more, redo is a no-op, the new entry is the history's tail, the index
points at it, and the truncation is real: the final history keeps only the
entries up to the index at commit time plus the one new entry. -/
theorem history_truncation (σ0 : EditorState) (cs : List CanvasState)
    (c : CanvasState) (k : Nat)
    (hN : 1 ≤ cs.length) (hk1 : 1 ≤ k) (hkN : k ≤ cs.length) :
    redo (commitGesture c (undo^[k] (cs.foldl (fun s x => commitGesture x s) σ0)))
      = commitGesture c (undo^[k] (cs.foldl (fun s x => commitGesture x s) σ0))
    ∧ (commitGesture c (undo^[k] (cs.foldl (fun s x => commitGesture x s) σ0))).historyIndex
        = (commitGesture c (undo^[k] (cs.foldl (fun s x => commitGesture x s) σ0))).history.length - 1
    ∧ (commitGesture c (undo^[k] (cs.foldl (fun s x => commitGesture x s) σ0))).history.getLast?
        = some c
    ∧ (commitGesture c (undo^[k] (cs.foldl (fun s x => commitGesture x s) σ0))).history.length
        = (undo^[k] (cs.foldl (fun s x => commitGesture x s) σ0)).historyIndex + 2 := by
  have hlt := iterate_undo_index_lt _ k (foldl_commit_index_lt σ0 cs hN)
  have htail := commitGesture_tail c (undo^[k] (cs.foldl (fun s x => commitGesture x s) σ0))
  refine ⟨redo_of_tail _ htail.1, htail.1, htail.2.2, ?_⟩
  have hlen : (commitGesture c (undo^[k] (cs.foldl (fun s x => commitGesture x s) σ0))).history.length
      = ((undo^[k] (cs.foldl (fun s x => commitGesture x s) σ0)).history.take
          ((undo^[k] (cs.foldl (fun s x => commitGesture x s) σ0)).historyIndex + 1)).length + 1 := by
    show ((undo^[k] (cs.foldl (fun s x => commitGesture x s) σ0)).history.take
        ((undo^[k] (cs.foldl (fun s x => commitGesture x s) σ0)).historyIndex + 1) ++ [c]).length = _
    simp
  rw [hlen]
  rw [List.length_take]
  omega

/-- C5 witness: N = 2 commits, k = 1 undo, one more commit; redo is then the
identity (checked at concrete document states with one marker element each). -/
theorem history_truncation_witness :
    redo (commitGesture ⟨[], some "w3"⟩
        (undo^[1] ([(⟨[], some "w1"⟩ : CanvasState), ⟨[], some "w2"⟩].foldl
          (fun s x => commitGesture x s) initState)))
      = commitGesture ⟨[], some "w3"⟩
        (undo^[1] ([(⟨[], some "w1"⟩ : CanvasState), ⟨[], some "w2"⟩].foldl
          (fun s x => commitGesture x s) initState))
    ∧ (1 : Nat) ≤ 2 := by
  refine ⟨?_, by norm_num⟩
  exact (history_truncation initState [⟨[], some "w1"⟩, ⟨[], some "w2"⟩]
    ⟨[], some "w3"⟩ 1 (by norm_num) (by norm_num) (by norm_num)).1

theorem findLoop_eq_take (env : Env) (els : List DrawingElement) (pos : Point) :
    ∀ n, n ≤ els.length →
      findLoop env els pos n =
        ((els.take n).reverse.find? fun el => truthyB el.visible && elementHit env el pos).map
          (fun el => el.id) := by
  intro n
  induction n with
  | zero => intro _; simp [findLoop]
  | succ n ih =>
    intro hn
    have hlt : n < els.length := by omega
    obtain ⟨element, helem⟩ : ∃ e, els[n]? = some e := by
      exact ⟨els[n], by simp [List.getElem?_eq_getElem hlt]⟩
    have htake : els.take (n + 1) = els.take n ++ [element] := by
      rw [List.take_succ, helem]
      rfl
    rw [htake]
    simp only [List.reverse_append, List.reverse_singleton, List.singleton_append]
    rw [List.find?_cons]
    by_cases hp : (truthyB element.visible && elementHit env element pos) = true
    · simp [findLoop, helem, hp]
    · have hp' : (truthyB element.visible && elementHit env element pos) = false := by
        simpa using hp
      simp only [findLoop, helem, hp']
      exact ih (by omega)

/-- C6: the hit test examines elements in reverse sequence order (top-most
first), skips elements whose visibility flag is off, and returns the first
matching element's id; concretely, for two identical overlapping rectangles A
(added first) and B (added second), the test at a point inside both returns
B's id, and returns A's id instead when B is invisible. -/
theorem hit_test_topmost_first :
    (∀ (env : Env) (els : List DrawingElement) (pos : Point),
        findElementAtPosition env els pos = hitTestSpecOrder env els pos)
    ∧ findElementAtPosition defaultEnv
        [{ id := "a", type := Tool.rectangle, width := some 10, height := some 10,
           visible := some true },
         { id := "b", type := Tool.rectangle, width := some 10, height := some 10,
           visible := some true }] ⟨5, 5⟩ = some "b"
    ∧ findElementAtPosition defaultEnv
        [{ id := "a", type := Tool.rectangle, width := some 10, height := some 10,
           visible := some true },
         { id := "b", type := Tool.rectangle, width := some 10, height := some 10,
           visible := some false }] ⟨5, 5⟩ = some "a" := by
  refine ⟨?_, by decide, by decide⟩
  intro env els pos
  unfold findElementAtPosition hitTestSpecOrder
  rw [findLoop_eq_take env els pos els.length (le_refl _), List.take_length]

/-- C7: from the empty document, pointer-down at document (10,10) with the
rectangle tool, pointer-move to (110,60), pointer-up: exactly one rectangle
element with x=10, y=10, width=100, height=50; history of length 2 whose head
is the initial empty document and whose tail entry is the final document; and
the selection is the new element's id (the first id the supply produced). -/
theorem rectangle_draw_scenario :
    ((reach defaultEnv [Event.setTool Tool.rectangle, Event.mouseDown 10 10 0 false,
        Event.mouseMove 110 60, Event.mouseUp]).canvasState.elements.map
          fun e => (e.type, e.x, e.y, e.width, e.height)) =
      [(Tool.rectangle, 10, 10, some 100, some 50)]
    ∧ (reach defaultEnv [Event.setTool Tool.rectangle, Event.mouseDown 10 10 0 false,
        Event.mouseMove 110 60, Event.mouseUp]).history.length = 2
    ∧ (reach defaultEnv [Event.setTool Tool.rectangle, Event.mouseDown 10 10 0 false,
        Event.mouseMove 110 60, Event.mouseUp]).history.head? =
        some { elements := [], selectedElementId := none }
    ∧ (reach defaultEnv [Event.setTool Tool.rectangle, Event.mouseDown 10 10 0 false,
        Event.mouseMove 110 60, Event.mouseUp]).history.getLast? =
        some (reach defaultEnv [Event.setTool Tool.rectangle, Event.mouseDown 10 10 0 false,
          Event.mouseMove 110 60, Event.mouseUp]).canvasState
    ∧ (reach defaultEnv [Event.setTool Tool.rectangle, Event.mouseDown 10 10 0 false,
        Event.mouseMove 110 60, Event.mouseUp]).canvasState.selectedElementId =
        some (defaultEnv.idStream 0) := by
  decide

/-- C1 is false on the code: dragging the selected line from (0,0)-(10,10)
with two pointer moves (cumulative deltas (1,0) then (2,0)) yields anchor
(2,0) but endpoint (13,10): `endX` is recomputed from the already-translated
endpoint at every move, so the segment vector becomes (11,10) instead of the
original (10,10) — length and orientation are not preserved. -/
theorem line_drag_distorts_segment :
    ((handleMouseMove defaultEnv (handleMouseMove defaultEnv lineDragState 1 0) 2 0).canvasState.elements.map
        fun e => (e.x, e.y, e.endX, e.endY)) = [(2, 0, some 13, some 10)]
    ∧ ((13 : ℚ) - 2, (10 : ℚ) - 0) ≠ ((10 : ℚ) - 0, (10 : ℚ) - 0) := by
  refine ⟨by decide, by decide⟩

/-- C4 is false on the code: draw a rectangle (one committed gesture), then
edit its color to "#ff0000" through the properties panel, then undo and redo.
The snapshot the edit pushed is the stale pre-edit document, so redo restores
the old color and the pre-undo state (history index 2 > 0) is not recovered. -/
theorem undo_redo_fails_after_property_edit :
    (redo (undo (reach defaultEnv [Event.setTool Tool.rectangle, Event.mouseDown 10 10 0 false,
        Event.mouseUp, Event.updateSelected { color := some "#ff0000" }]))).canvasState ≠
      (reach defaultEnv [Event.setTool Tool.rectangle, Event.mouseDown 10 10 0 false,
        Event.mouseUp, Event.updateSelected { color := some "#ff0000" }]).canvasState
    ∧ 0 < (reach defaultEnv [Event.setTool Tool.rectangle, Event.mouseDown 10 10 0 false,
        Event.mouseUp, Event.updateSelected { color := some "#ff0000" }]).historyIndex
    ∧ ((reach defaultEnv [Event.setTool Tool.rectangle, Event.mouseDown 10 10 0 false,
        Event.mouseUp, Event.updateSelected { color := some "#ff0000" }]).canvasState.elements.map
          fun e => e.color) = ["#ff0000"]
    ∧ ((redo (undo (reach defaultEnv [Event.setTool Tool.rectangle, Event.mouseDown 10 10 0 false,
        Event.mouseUp, Event.updateSelected { color := some "#ff0000" }]))).canvasState.elements.map
          fun e => e.color) = ["#164e63"] := by
  refine ⟨by decide, by decide, by decide, by decide⟩

/-- C2 is false on the code as stated: a bare select-tool click on the empty
canvas — a completed gesture that neither draws a new element nor drags one —
still appends a history entry at pointer-up, because `setIsDrawing(true)` runs
before the tool dispatch.  The history grows from its initial length 1 to 2. -/
theorem select_click_appends_history :
    (reach defaultEnv [Event.mouseDown 5 5 0 false, Event.mouseUp]).history.length = 2
    ∧ initState.history.length = 1
    ∧ initState.tool = Tool.select
    ∧ (reach defaultEnv [Event.mouseDown 5 5 0 false, Event.mouseUp]).canvasState.elements = [] := by
  decide

/-- C3 is false on the code as stated: with text editing active (buffer "hi")
and the rectangle tool selected, a pointer-down finalizes the text but is then
dropped rather than falling through — no rectangle is created, the drawing
flag stays off, and the only element afterwards is the committed text. -/
theorem text_commit_swallows_pointer_down :
    (handleMouseDown defaultEnv editingTextState 5 5 0 false).isDrawing = false
    ∧ ((handleMouseDown defaultEnv editingTextState 5 5 0 false).canvasState.elements.map
        fun e => e.type) = [Tool.text]
    ∧ (handleMouseDown defaultEnv editingTextState 5 5 0 false).isEditingText = false
    ∧ editingTextState.isEditingText = true
    ∧ editingTextState.tool = Tool.rectangle := by
  decide

theorem handleMouseMove_history (env : Env) (σ : EditorState) (cx cy : ℚ) :
    (handleMouseMove env σ cx cy).history = σ.history := by
  unfold handleMouseMove
  split
  · rfl
  · split
    · rfl
    · split
      · rfl
      · split <;> rfl

theorem handleMouseUp_history (σ : EditorState) :
    (handleMouseUp σ).history =
      if σ.isDragging ∨ σ.isDrawing then
        σ.history.take (σ.historyIndex + 1) ++ [σ.canvasState]
      else σ.history := by
  unfold handleMouseUp saveToHistory
  split <;> rfl

theorem updateSelectedElement_history (σ : EditorState) (u : ElementUpdates) :
    (updateSelectedElement σ u).history =
      if truthyS σ.canvasState.selectedElementId then
        σ.history.take (σ.historyIndex + 1) ++ [σ.canvasState]
      else σ.history := by
  unfold updateSelectedElement saveToHistory
  split <;> rfl

/-- C2 (amended): history entries are appended only at gesture and edit
boundaries, never during an intermediate pointer-move (no branch of
`handleMouseMove` touches the history).  At pointer-up exactly one entry —
the render-time document — is appended whenever the dragging flag or the
drawing flag is set; since `setIsDrawing(true)` runs before the tool
dispatch, the drawing flag is set by every non-pan, non-text-commit
pointer-down, so select-tool and image-tool clicks also commit one entry at
pointer-up.  A pointer-up with neither flag set leaves the history unchanged,
and a property-panel edit with a live selection appends exactly one entry. -/
theorem history_commit_boundaries (env : Env) (σ : EditorState) (cx cy : ℚ)
    (u : ElementUpdates) :
    (handleMouseMove env σ cx cy).history = σ.history
    ∧ (σ.isDragging = true ∨ σ.isDrawing = true →
        (handleMouseUp σ).history.length = (σ.history.take (σ.historyIndex + 1)).length + 1
        ∧ (handleMouseUp σ).history.getLast? = some σ.canvasState)
    ∧ (σ.isDragging = false → σ.isDrawing = false → (handleMouseUp σ).history = σ.history)
    ∧ (truthyS σ.canvasState.selectedElementId = true →
        (updateSelectedElement σ u).history.length
            = (σ.history.take (σ.historyIndex + 1)).length + 1
        ∧ (updateSelectedElement σ u).history.getLast? = some σ.canvasState) := by
  refine ⟨handleMouseMove_history env σ cx cy, ?_, ?_, ?_⟩
  · intro h
    have hcond : σ.isDragging ∨ σ.isDrawing := by
      rcases h with h | h
      · exact Or.inl (by simp [h])
      · exact Or.inr (by simp [h])
    rw [handleMouseUp_history, if_pos hcond]
    exact ⟨by simp, by simp⟩
  · intro h1 h2
    rw [handleMouseUp_history, if_neg]
    simp [h1, h2]
  · intro h
    rw [updateSelectedElement_history, if_pos h]
    exact ⟨by simp, by simp⟩

/-- C2 witness: a pointer-up with the drawing flag set (as after any
select-tool click) appends exactly one entry to the singleton initial
history. -/
theorem history_commit_boundaries_witness :
    (handleMouseUp { initState with isDrawing := true }).history.length
      = (initState.history.take (initState.historyIndex + 1)).length + 1 := by
  exact ((history_commit_boundaries defaultEnv { initState with isDrawing := true }
    0 0 { }).2.1 (Or.inr rfl)).1

/-- C3 (amended): a pointer-down while text editing is active finalizes the
pending text first — with a non-blank buffer, a text element carrying the
buffer and the captured position is appended, selected, and exactly one
history entry is pushed; with a blank buffer the document and history are
untouched — after which editing mode is off and the buffer cleared.  The
pointer-down itself is then consumed rather than falling through: the handler
returns, leaving the drawing, panning and dragging flags unchanged and
creating no shape. -/
theorem pointer_down_while_editing (env : Env) (σ : EditorState) (cx cy : ℚ)
    (b : Nat) (ctrl : Bool) (h : σ.isEditingText = true) :
    handleMouseDown env σ cx cy b ctrl = completeTextInput env σ
    ∧ (completeTextInput env σ).isEditingText = false
    ∧ (completeTextInput env σ).textInputValue = ""
    ∧ (completeTextInput env σ).isDrawing = σ.isDrawing
    ∧ (completeTextInput env σ).isPanning = σ.isPanning
    ∧ (completeTextInput env σ).isDragging = σ.isDragging
    ∧ (jsTrim σ.textInputValue ≠ "" →
        ((completeTextInput env σ).canvasState.elements.map fun e => (e.type, e.x, e.y, e.text))
          = (σ.canvasState.elements.map fun e => (e.type, e.x, e.y, e.text))
            ++ [(Tool.text, σ.textInputPosition.x, σ.textInputPosition.y, some σ.textInputValue)]
        ∧ (completeTextInput env σ).canvasState.selectedElementId
            = some (env.idStream σ.nextIdIdx)
        ∧ (completeTextInput env σ).history.length
            = (σ.history.take (σ.historyIndex + 1)).length + 1)
    ∧ (jsTrim σ.textInputValue = "" →
        (completeTextInput env σ).canvasState = σ.canvasState
        ∧ (completeTextInput env σ).history = σ.history) := by
  refine ⟨by simp [handleMouseDown, h], ?_, ?_, ?_, ?_, ?_, ?_, ?_⟩
  · rfl
  · rfl
  · unfold completeTextInput
    split <;> rfl
  · unfold completeTextInput
    split <;> rfl
  · unfold completeTextInput
    split <;> rfl
  · intro ht
    unfold completeTextInput saveToHistory
    rw [if_pos ht]
    refine ⟨by simp, rfl, by simp⟩
  · intro ht
    unfold completeTextInput
    rw [if_neg (by simp [ht])]
    exact ⟨rfl, rfl⟩

/-- C3 witness: the amended behaviour at the concrete editing state with
buffer "hi" and the rectangle tool active. -/
theorem pointer_down_while_editing_witness :
    editingTextState.isEditingText = true
    ∧ handleMouseDown defaultEnv editingTextState 5 5 0 false
        = completeTextInput defaultEnv editingTextState := by
  refine ⟨rfl, ?_⟩
  exact (pointer_down_while_editing defaultEnv editingTextState 5 5 0 false rfl).1

theorem processImageFileLoaded_scaled (env : Env) (σ : EditorState) (file : DFile) (dp : Point)
    (hc : env.canvasWidth * (1 / 2) < file.w ∨ env.canvasHeight * (1 / 2) < file.h) :
    processImageFileLoaded env σ file (some dp) =
      { σ with
        nextIdIdx := σ.nextIdIdx + 1
        canvasState :=
          { elements := σ.canvasState.elements ++
              [{ id := env.idStream σ.nextIdIdx, type := Tool.image,
                 x := dp.x - file.w * min (env.canvasWidth * (1 / 2) / file.w)
                        (env.canvasHeight * (1 / 2) / file.h) / 2,
                 y := dp.y - file.h * min (env.canvasWidth * (1 / 2) / file.w)
                        (env.canvasHeight * (1 / 2) / file.h) / 2,
                 color := σ.currentColor, strokeWidth := σ.strokeWidth,
                 imageData := some file.data,
                 imageWidth := some (file.w * min (env.canvasWidth * (1 / 2) / file.w)
                   (env.canvasHeight * (1 / 2) / file.h)),
                 imageHeight := some (file.h * min (env.canvasWidth * (1 / 2) / file.w)
                   (env.canvasHeight * (1 / 2) / file.h)),
                 width := some (file.w * min (env.canvasWidth * (1 / 2) / file.w)
                   (env.canvasHeight * (1 / 2) / file.h)),
                 height := some (file.h * min (env.canvasWidth * (1 / 2) / file.w)
                   (env.canvasHeight * (1 / 2) / file.h)),
                 visible := some true }]
            selectedElementId := some (env.idStream σ.nextIdIdx) }
        history := σ.history.take (σ.historyIndex + 1) ++ [σ.canvasState]
        historyIndex := (σ.history.take (σ.historyIndex + 1) ++ [σ.canvasState]).length - 1 } := by
  simp only [processImageFileLoaded, saveToHistory]
  rw [if_pos hc]

theorem processImageFileLoaded_unscaled (env : Env) (σ : EditorState) (file : DFile) (dp : Point)
    (hc : ¬(env.canvasWidth * (1 / 2) < file.w ∨ env.canvasHeight * (1 / 2) < file.h)) :
    processImageFileLoaded env σ file (some dp) =
      { σ with
        nextIdIdx := σ.nextIdIdx + 1
        canvasState :=
          { elements := σ.canvasState.elements ++
              [{ id := env.idStream σ.nextIdIdx, type := Tool.image,
                 x := dp.x - file.w / 2, y := dp.y - file.h / 2,
                 color := σ.currentColor, strokeWidth := σ.strokeWidth,
                 imageData := some file.data,
                 imageWidth := some file.w, imageHeight := some file.h,
                 width := some file.w, height := some file.h,
                 visible := some true }]
            selectedElementId := some (env.idStream σ.nextIdIdx) }
        history := σ.history.take (σ.historyIndex + 1) ++ [σ.canvasState]
        historyIndex := (σ.history.take (σ.historyIndex + 1) ++ [σ.canvasState]).length - 1 } := by
  simp only [processImageFileLoaded, saveToHistory]
  rw [if_neg hc]

/-- C10: a drop whose files contain no image is a complete no-op; a drop with
an image file (the first one) appends exactly one image element whose size
preserves the intrinsic aspect ratio, never exceeds half the canvas in either
dimension, and is left at the intrinsic size when it already fits; the element
is centred on the drop point converted to document coordinates, becomes the
selection, and exactly one history entry is committed. -/
theorem image_drop (env : Env) (σ : EditorState) (cx cy : ℚ) (files : List DFile)
    (hW : 0 < env.canvasWidth) (hH : 0 < env.canvasHeight) :
    ((files.filter fun f => jsStartsWith f.ftype "image/") = [] →
      handleDrop env σ cx cy files = σ)
    ∧ ∀ f rest, (files.filter fun f => jsStartsWith f.ftype "image/") = f :: rest →
        0 < f.w → 0 < f.h →
        ∃ W H : ℚ,
          0 < W ∧ 0 < H
          ∧ W * f.h = H * f.w
          ∧ W ≤ env.canvasWidth / 2 ∧ H ≤ env.canvasHeight / 2
          ∧ (f.w ≤ env.canvasWidth / 2 → f.h ≤ env.canvasHeight / 2 → W = f.w ∧ H = f.h)
          ∧ (handleDrop env σ cx cy files).canvasState.elements
              = σ.canvasState.elements ++
                [{ id := env.idStream σ.nextIdIdx, type := Tool.image,
                   x := (cx - env.rectLeft - σ.panOffset.x) / σ.zoom - W / 2,
                   y := (cy - env.rectTop - σ.panOffset.y) / σ.zoom - H / 2,
                   color := σ.currentColor, strokeWidth := σ.strokeWidth,
                   width := some W, height := some H,
                   imageData := some f.data, imageWidth := some W, imageHeight := some H,
                   visible := some true }]
          ∧ (handleDrop env σ cx cy files).canvasState.selectedElementId
              = some (env.idStream σ.nextIdIdx)
          ∧ (handleDrop env σ cx cy files).history.length
              = (σ.history.take (σ.historyIndex + 1)).length + 1 := by
  constructor
  · intro h
    simp only [handleDrop, h]
  · intro f rest hf hfw hfh
    have hmw : (0 : ℚ) < env.canvasWidth * (1 / 2) := by positivity
    have hmh : (0 : ℚ) < env.canvasHeight * (1 / 2) := by positivity
    have hdrop : handleDrop env σ cx cy files =
        processImageFileLoaded env σ f
          (some ⟨(cx - env.rectLeft - σ.panOffset.x) / σ.zoom,
                 (cy - env.rectTop - σ.panOffset.y) / σ.zoom⟩) := by
      simp only [handleDrop, hf]
    by_cases hc : env.canvasWidth * (1 / 2) < f.w ∨ env.canvasHeight * (1 / 2) < f.h
    · rw [hdrop, processImageFileLoaded_scaled env σ f _ hc]
      have hmin : (0 : ℚ) < min (env.canvasWidth * (1 / 2) / f.w) (env.canvasHeight * (1 / 2) / f.h) :=
        lt_min (div_pos hmw hfw) (div_pos hmh hfh)
      refine ⟨f.w * min (env.canvasWidth * (1 / 2) / f.w) (env.canvasHeight * (1 / 2) / f.h),
              f.h * min (env.canvasWidth * (1 / 2) / f.w) (env.canvasHeight * (1 / 2) / f.h),
              by positivity, by positivity, by ring, ?_, ?_, ?_, rfl, rfl, by simp⟩
      · have h1 : f.w * min (env.canvasWidth * (1 / 2) / f.w) (env.canvasHeight * (1 / 2) / f.h)
            ≤ f.w * (env.canvasWidth * (1 / 2) / f.w) :=
          mul_le_mul_of_nonneg_left (min_le_left _ _) hfw.le
        have h2 : f.w * (env.canvasWidth * (1 / 2) / f.w) = env.canvasWidth / 2 := by
          field_simp
          ring
        linarith [h2 ▸ h1]
      · have h1 : f.h * min (env.canvasWidth * (1 / 2) / f.w) (env.canvasHeight * (1 / 2) / f.h)
            ≤ f.h * (env.canvasHeight * (1 / 2) / f.h) :=
          mul_le_mul_of_nonneg_left (min_le_right _ _) hfh.le
        have h2 : f.h * (env.canvasHeight * (1 / 2) / f.h) = env.canvasHeight / 2 := by
          field_simp
          ring
        linarith [h2 ▸ h1]
      · intro hw2 hh2
        exfalso
        rcases hc with hc | hc
        · have h2 : env.canvasWidth * (1 / 2) = env.canvasWidth / 2 := by ring
          rw [h2] at hc
          linarith
        · have h2 : env.canvasHeight * (1 / 2) = env.canvasHeight / 2 := by ring
          rw [h2] at hc
          linarith
    · rw [hdrop, processImageFileLoaded_unscaled env σ f _ hc]
      push_neg at hc
      refine ⟨f.w, f.h, hfw, hfh, by ring, ?_, ?_, fun _ _ => ⟨rfl, rfl⟩, rfl, rfl, by simp⟩
      · have h2 : env.canvasWidth * (1 / 2) = env.canvasWidth / 2 := by ring
        rw [h2] at hc
        exact hc.1
      · have h2 : env.canvasHeight * (1 / 2) = env.canvasHeight / 2 := by ring
        rw [h2] at hc
        exact hc.2

/-- C10 witness: dropping a 1000 x 500 PNG at client (100,100) onto the
800 x 600 canvas appends the image scaled to 400 x 200 (ratio 2/5), centred on
the drop point, selects it and commits one entry. -/
theorem image_drop_witness :
    (handleDrop defaultEnv initState 100 100 [⟨"image/png", 1000, 500, "d"⟩]).canvasState.selectedElementId
      = some (defaultEnv.idStream 0)
    ∧ (handleDrop defaultEnv initState 100 100 [⟨"image/png", 1000, 500, "d"⟩]).history.length = 2
    ∧ ((handleDrop defaultEnv initState 100 100 [⟨"image/png", 1000, 500, "d"⟩]).canvasState.elements.map
        fun e => (e.x, e.y, e.width, e.height)) = [(-100, 0, some 400, some 200)] := by
  have h := (image_drop defaultEnv initState 100 100 [⟨"image/png", 1000, 500, "d"⟩]
    (by decide) (by decide)).2 ⟨"image/png", 1000, 500, "d"⟩ [] (by decide)
    (by decide) (by decide)
  obtain ⟨W, H, -, -, -, -, -, -, hels, hsel, hlen⟩ := h
  exact ⟨hsel, by decide, by decide⟩

theorem goodIds_mono (env : Env) {m n : Nat} {c : CanvasState} (hmn : m ≤ n)
    (h : GoodIds env m c) : GoodIds env n c := by
  refine ⟨h.1, fun s hs => ?_⟩
  obtain ⟨k, hk, hsk⟩ := h.2 s hs
  exact ⟨k, by omega, hsk⟩

theorem goodIds_of_elemIds_eq (env : Env) {n : Nat} {c c' : CanvasState}
    (he : elemIds c' = elemIds c) (h : GoodIds env n c) : GoodIds env n c' := by
  refine ⟨?_, fun s hs => h.2 s ?_⟩
  · rw [he]
    exact h.1
  · rw [← he]
    exact hs

theorem goodIds_of_sublist (env : Env) {n : Nat} {c c' : CanvasState}
    (he : (elemIds c').Sublist (elemIds c)) (h : GoodIds env n c) : GoodIds env n c' :=
  ⟨h.1.sublist he, fun s hs => h.2 s (he.subset hs)⟩

theorem goodIds_selection (env : Env) {n : Nat} {c : CanvasState} (sel : Option String)
    (h : GoodIds env n c) : GoodIds env n { elements := c.elements, selectedElementId := sel } :=
  goodIds_of_elemIds_eq env rfl h

theorem goodIds_empty (env : Env) (n : Nat) (sel : Option String) :
    GoodIds env n { elements := [], selectedElementId := sel } := by
  constructor
  · simp [elemIds]
  · intro s hs
    simp [elemIds] at hs

theorem goodIds_append_fresh (env : Env) (hinj : Function.Injective env.idStream)
    {n : Nat} {c : CanvasState} (el : DrawingElement) (sel : Option String)
    (hid : el.id = env.idStream n) (h : GoodIds env n c) :
    GoodIds env (n + 1) { elements := c.elements ++ [el], selectedElementId := sel } := by
  have hnotin : el.id ∉ elemIds c := by
    intro hmem
    obtain ⟨k, hk, hsk⟩ := h.2 _ hmem
    rw [hid] at hsk
    have := hinj hsk
    omega
  constructor
  · show ((c.elements ++ [el]).map fun e => e.id).Nodup
    rw [List.map_append]
    simp only [List.map_cons, List.map_nil]
    rw [List.nodup_append]
    refine ⟨h.1, by simp, ?_⟩
    intro a ha
    simp only [List.mem_singleton]
    intro hb
    rw [hb] at ha
    exact hnotin ha
  · intro s hs
    show ∃ k, k < n + 1 ∧ s = env.idStream k
    have hs' : s ∈ (c.elements.map fun e => e.id) ++ [el.id] := by
      simpa [elemIds, List.map_append] using hs
    rcases List.mem_append.mp hs' with hmem | hmem
    · obtain ⟨k, hk, hsk⟩ := h.2 s hmem
      exact ⟨k, by omega, hsk⟩
    · rcases List.mem_singleton.mp hmem with rfl
      exact ⟨n, by omega, hid⟩

theorem goodIds_saveToHistory (env : Env) {n : Nat} (cs : CanvasState)
    (hist : List CanvasState) (idx : Nat)
    (hcs : GoodIds env n cs) (hh : ∀ c ∈ hist, GoodIds env n c) :
    ∀ c ∈ (saveToHistory cs hist idx).1, GoodIds env n c := by
  intro c hc
  simp only [saveToHistory] at hc
  rcases List.mem_append.mp hc with hc | hc
  · exact hh c (List.take_subset _ _ hc)
  · rcases List.mem_singleton.mp hc with rfl
    exact hcs

theorem goodIds_getD (env : Env) {n : Nat} (hist : List CanvasState) (i : Nat)
    (hh : ∀ c ∈ hist, GoodIds env n c) :
    GoodIds env n (hist.getD i { elements := [], selectedElementId := none }) := by
  by_cases hi : i < hist.length
  · rw [List.getD_eq_getElem hist _ hi]
    exact hh _ (List.getElem_mem hi)
  · rw [List.getD_eq_default]
    · exact goodIds_empty env n none
    · omega

theorem mkToolElement_id (env : Env) (σ : EditorState) (pos : Point) :
    (mkToolElement env σ pos).id = env.idStream σ.nextIdIdx := by
  unfold mkToolElement
  split_ifs <;> rfl

theorem idInv_initState (env : Env) : IdInv env initState := by
  constructor
  · exact goodIds_empty env 0 none
  · intro c hc
    simp only [initState, List.mem_singleton] at hc
    rw [hc]
    exact goodIds_empty env 0 none

theorem idInv_addElement (env : Env) (hinj : Function.Injective env.idStream)
    (σ : EditorState) (pos : Point) (h : IdInv env σ) : IdInv env (addElement env σ pos) := by
  obtain ⟨hcs, hh⟩ := h
  constructor
  · exact goodIds_append_fresh env hinj _ _ (mkToolElement_id env σ pos) hcs
  · intro c hc
    exact goodIds_mono env (Nat.le_succ _) (hh c hc)

theorem idInv_completeTextInput (env : Env) (hinj : Function.Injective env.idStream)
    (σ : EditorState) (h : IdInv env σ) : IdInv env (completeTextInput env σ) := by
  obtain ⟨hcs, hh⟩ := h
  unfold completeTextInput
  split
  · constructor
    · exact goodIds_append_fresh env hinj _ _ rfl hcs
    · intro c hc
      exact goodIds_mono env (Nat.le_succ _)
        (goodIds_saveToHistory env σ.canvasState σ.history σ.historyIndex hcs hh c hc)
  · exact ⟨hcs, hh⟩

theorem idInv_processImageFileLoaded (env : Env) (hinj : Function.Injective env.idStream)
    (σ : EditorState) (file : DFile) (dp : Option Point) (h : IdInv env σ) :
    IdInv env (processImageFileLoaded env σ file dp) := by
  obtain ⟨hcs, hh⟩ := h
  constructor
  · exact goodIds_append_fresh env hinj _ _ rfl hcs
  · intro c hc
    exact goodIds_mono env (Nat.le_succ _)
      (goodIds_saveToHistory env σ.canvasState σ.history σ.historyIndex hcs hh c hc)

theorem updateSelectedElement_elemIds (σ : EditorState) (u : ElementUpdates) :
    elemIds (updateSelectedElement σ u).canvasState = elemIds σ.canvasState := by
  unfold updateSelectedElement
  split
  · simp only [elemIds]
    rw [List.map_map]
    refine List.map_congr_left ?_
    intro el _
    dsimp only [Function.comp]
    split <;> rfl
  · rfl

theorem handleMouseMove_elemIds (env : Env) (σ : EditorState) (cx cy : ℚ) :
    elemIds (handleMouseMove env σ cx cy).canvasState = elemIds σ.canvasState := by
  unfold handleMouseMove
  split
  · rfl
  · split
    · simp only [elemIds]
      rw [List.map_map]
      refine List.map_congr_left ?_
      intro el _
      dsimp only [Function.comp]
      split
      · split <;> rfl
      · rfl
    · split
      · rfl
      · split
        · rfl
        · rename_i currentElement heq
          have hne : σ.canvasState.elements ≠ [] := by
            intro hnil
            rw [hnil] at heq
            simp at heq
          have hlast : σ.canvasState.elements.getLast hne = currentElement := by
            have h2 := List.getLast?_eq_getLast σ.canvasState.elements hne
            rw [h2] at heq
            exact Option.some.inj heq
          have hsplit : σ.canvasState.elements.dropLast ++ [currentElement]
              = σ.canvasState.elements := by
            rw [← hlast]
            exact List.dropLast_append_getLast hne
          have key : ∀ upd : DrawingElement, upd.id = currentElement.id →
              ((σ.canvasState.elements.dropLast ++ [upd]).map fun e => e.id)
                = σ.canvasState.elements.map fun e => e.id := by
            intro upd hupd
            conv_rhs => rw [← hsplit]
            rw [List.map_append, List.map_append]
            simp [hupd]
          simp only [elemIds]
          exact key _ (by split_ifs <;> rfl)

theorem idInv_of_parts (env : Env) {σ σ' : EditorState}
    (hel : elemIds σ'.canvasState = elemIds σ.canvasState)
    (hh : σ'.history = σ.history)
    (hn : σ.nextIdIdx ≤ σ'.nextIdIdx)
    (h : IdInv env σ) : IdInv env σ' := by
  obtain ⟨h1, h2⟩ := h
  constructor
  · exact goodIds_of_elemIds_eq env hel (goodIds_mono env hn h1)
  · intro c hc
    rw [hh] at hc
    exact goodIds_mono env hn (h2 c hc)

theorem handleMouseMove_nextIdIdx (env : Env) (σ : EditorState) (cx cy : ℚ) :
    (handleMouseMove env σ cx cy).nextIdIdx = σ.nextIdIdx := by
  unfold handleMouseMove
  split
  · rfl
  · split
    · rfl
    · split
      · rfl
      · split <;> rfl

theorem idInv_handleMouseMove (env : Env) (σ : EditorState) (cx cy : ℚ)
    (h : IdInv env σ) : IdInv env (handleMouseMove env σ cx cy) :=
  idInv_of_parts env (handleMouseMove_elemIds env σ cx cy)
    (handleMouseMove_history env σ cx cy)
    (le_of_eq (handleMouseMove_nextIdIdx env σ cx cy).symm) h

theorem idInv_handleMouseUp (env : Env) (σ : EditorState)
    (h : IdInv env σ) : IdInv env (handleMouseUp σ) := by
  obtain ⟨hcs, hh⟩ := h
  unfold handleMouseUp
  split
  · exact ⟨hcs, goodIds_saveToHistory env σ.canvasState σ.history σ.historyIndex hcs hh⟩
  · exact ⟨hcs, hh⟩

theorem idInv_undo (env : Env) (σ : EditorState) (h : IdInv env σ) :
    IdInv env (undo σ) := by
  obtain ⟨hcs, hh⟩ := h
  unfold undo
  split
  · exact ⟨goodIds_getD env σ.history _ hh, hh⟩
  · exact ⟨hcs, hh⟩

theorem idInv_redo (env : Env) (σ : EditorState) (h : IdInv env σ) :
    IdInv env (redo σ) := by
  obtain ⟨hcs, hh⟩ := h
  unfold redo
  split
  · exact ⟨goodIds_getD env σ.history _ hh, hh⟩
  · exact ⟨hcs, hh⟩

theorem updateSelectedElement_nextIdIdx (σ : EditorState) (u : ElementUpdates) :
    (updateSelectedElement σ u).nextIdIdx = σ.nextIdIdx := by
  unfold updateSelectedElement
  split <;> rfl

theorem idInv_updateSelectedElement (env : Env) (σ : EditorState) (u : ElementUpdates)
    (h : IdInv env σ) : IdInv env (updateSelectedElement σ u) := by
  obtain ⟨hcs, hh⟩ := h
  constructor
  · rw [updateSelectedElement_nextIdIdx]
    exact goodIds_of_elemIds_eq env (updateSelectedElement_elemIds σ u) hcs
  · intro c hc
    rw [updateSelectedElement_nextIdIdx]
    rw [updateSelectedElement_history] at hc
    by_cases hsel : truthyS σ.canvasState.selectedElementId = true
    · rw [if_pos hsel] at hc
      exact goodIds_saveToHistory env σ.canvasState σ.history σ.historyIndex hcs hh c hc
    · rw [if_neg hsel] at hc
      exact hh c hc

theorem idInv_deleteSelectedElement (env : Env) (σ : EditorState)
    (h : IdInv env σ) : IdInv env (deleteSelectedElement σ) := by
  obtain ⟨hcs, hh⟩ := h
  unfold deleteSelectedElement
  split
  · constructor
    · refine goodIds_of_sublist env ?_ hcs
      simp only [elemIds]
      exact (List.filter_sublist _).map _
    · exact goodIds_saveToHistory env σ.canvasState σ.history σ.historyIndex hcs hh
  · exact ⟨hcs, hh⟩

theorem idInv_handleMouseDown (env : Env) (hinj : Function.Injective env.idStream)
    (σ : EditorState) (cx cy : ℚ) (b : Nat) (ctrl : Bool)
    (h : IdInv env σ) : IdInv env (handleMouseDown env σ cx cy b ctrl) := by
  unfold handleMouseDown
  split
  · exact idInv_completeTextInput env hinj σ h
  · split
    · exact h
    · dsimp only
      split
      · exact h
      · split
        · split
          · split
            · exact ⟨goodIds_selection env _ h.1, h.2⟩
            · exact ⟨goodIds_selection env _ h.1, h.2⟩
          · exact ⟨goodIds_selection env _ h.1, h.2⟩
        · split
          · exact h
          · exact idInv_addElement env hinj _ _ h

theorem idInv_handleDrop (env : Env) (hinj : Function.Injective env.idStream)
    (σ : EditorState) (cx cy : ℚ) (files : List DFile)
    (h : IdInv env σ) : IdInv env (handleDrop env σ cx cy files) := by
  unfold handleDrop
  dsimp only
  split
  · exact h
  · exact idInv_processImageFileLoaded env hinj σ _ _ h

theorem idInv_handleImageUpload (env : Env) (hinj : Function.Injective env.idStream)
    (σ : EditorState) (file : DFile)
    (h : IdInv env σ) : IdInv env (handleImageUpload env σ file) := by
  unfold handleImageUpload
  split
  · exact idInv_processImageFileLoaded env hinj σ _ _ h
  · exact h

theorem idInv_step (env : Env) (hinj : Function.Injective env.idStream)
    (σ : EditorState) (e : Event) (h : IdInv env σ) : IdInv env (step env σ e) := by
  cases e with
  | mouseDown cx cy b ctrl => exact idInv_handleMouseDown env hinj σ cx cy b ctrl h
  | mouseMove cx cy => exact idInv_handleMouseMove env σ cx cy h
  | mouseUp => exact idInv_handleMouseUp env σ h
  | wheel dY ctrl =>
    show IdInv env (handleWheel σ dY ctrl)
    unfold handleWheel
    split <;> exact h
  | undoCmd => exact idInv_undo env σ h
  | redoCmd => exact idInv_redo env σ h
  | zoomInCmd => exact h
  | zoomOutCmd => exact h
  | zoomResetCmd => exact h
  | setTool t => exact h
  | updateSelected u => exact idInv_updateSelectedElement env σ u h
  | deleteSelected => exact idInv_deleteSelectedElement env σ h
  | textChange s =>
    show IdInv env (if σ.isEditingText then _ else σ)
    split <;> exact h
  | textSubmit =>
    show IdInv env (if σ.isEditingText then completeTextInput env σ else σ)
    split
    · exact idInv_completeTextInput env hinj σ h
    · exact h
  | textEscape =>
    show IdInv env (if σ.isEditingText then _ else σ)
    split <;> exact h
  | drop cx cy files => exact idInv_handleDrop env hinj σ cx cy files h
  | imageUpload file => exact idInv_handleImageUpload env hinj σ file h

theorem idInv_reach (env : Env) (hinj : Function.Injective env.idStream)
    (evs : List Event) : IdInv env (reach env evs) := by
  have key : ∀ (l : List Event) (σ : EditorState), IdInv env σ →
      IdInv env (l.foldl (step env) σ) := by
    intro l
    induction l with
    | nil => intro σ h; exact h
    | cons e l ih =>
      intro σ h
      exact ih (step env σ e) (idInv_step env hinj σ e h)
  exact key evs initState (idInv_initState env)

/-- C9: assuming the id supply is injective (the source draws random 9-char
ids and relies on their uniqueness), every editor state reachable from the
initial render by any event sequence has pairwise-distinct element ids; and
no operation changes an existing element's id: the panel's partial updates
never carry an id, merging them leaves the id intact, a property edit leaves
the document's id sequence unchanged, and so does every pointer-move
(dragging or live-resizing only rewrites geometry fields). -/
theorem element_ids_unique_and_stable (env : Env) (evs : List Event)
    (hinj : Function.Injective env.idStream) :
    (elemIds (reach env evs).canvasState).Nodup
    ∧ (∀ (el : DrawingElement) (u : ElementUpdates), (applyUpdates el u).id = el.id)
    ∧ (∀ (σ : EditorState) (u : ElementUpdates),
        elemIds (updateSelectedElement σ u).canvasState = elemIds σ.canvasState)
    ∧ (∀ (σ : EditorState) (cx cy : ℚ),
        elemIds (handleMouseMove env σ cx cy).canvasState = elemIds σ.canvasState) :=
  ⟨(idInv_reach env hinj evs).1.1, fun _ _ => rfl,
   fun σ u => updateSelectedElement_elemIds σ u,
   fun σ cx cy => handleMouseMove_elemIds env σ cx cy⟩

/-- C9 witness: after drawing two rectangles (two full gestures) from the
initial state under the concrete injective id supply, the two element ids are
distinct. -/
theorem element_ids_unique_witness :
    (elemIds (reach defaultEnv [Event.setTool Tool.rectangle, Event.mouseDown 0 0 0 false,
        Event.mouseUp, Event.mouseDown 5 5 0 false, Event.mouseUp]).canvasState).Nodup
    ∧ elemIds (reach defaultEnv [Event.setTool Tool.rectangle, Event.mouseDown 0 0 0 false,
        Event.mouseUp, Event.mouseDown 5 5 0 false, Event.mouseUp]).canvasState
      = ["a", "aa"] := by
  refine ⟨?_, by decide⟩
  exact (element_ids_unique_and_stable defaultEnv [Event.setTool Tool.rectangle,
    Event.mouseDown 0 0 0 false, Event.mouseUp, Event.mouseDown 5 5 0 false,
    Event.mouseUp] defaultEnv_idStream_injective).1
